import Mathlib

/-!
Shallow embedding of the did-dht Pkarr service core:
  * `impl/pkg/service/pkarr.go` — validation, publish pipeline, resolution
    fallback chain, republish loop;
  * the sqlc-generated postgres queries (`ListRecords`, `ReadRecord`,
    `WriteRecord`) for the durable store.

Conventions of the embedding:
  * Go byte slices and fixed-size byte arrays are `List Nat` with every
    element `< 256` (stated as a hypothesis where a proof needs it).
  * `base64.RawURLEncoding` strings are represented as lists of the 6-bit
    alphabet indices (the character table is a fixed bijection between
    `0..63` and the URL alphabet, so nothing is lost by working with the
    indices directly).
  * External collaborators that the spec declares out of scope (ed25519
    signature verification via `bep44.Verify`, the DHT client, the cache's
    internals, the id derivation from the public key) enter the model as
    oracle fields of `Env`.
  * `json.Marshal`/`json.Unmarshal` of `GetPkarrResponse` is a total,
    injective serialization for this fixed struct, so cache entries are
    modelled as the struct itself; the byte length of the Go JSON encoding
    is modelled exactly by `cachedLen` for the cache's per-entry bound.
  * Fallible Go code returns `Except Err` / `Option`; Go run-time panics
    from slice-to-array conversions are the explicit `Err.sliceTooShort`.
-/

/-- Byte lists: every element is a byte value. -/
def isBytes (l : List Nat) : Prop := ∀ x ∈ l, x < 256

instance (l : List Nat) : Decidable (isBytes l) :=
  List.decidableBAll _ l

/-- The constant `recordSizeLimit = 1000` from `pkarr.go`, installed as the
cache's per-entry size limit (`cacheConfig.MaxEntrySize`). -/
def recordSizeLimit : Nat := 1000

/-- `base64.RawURLEncoding.EncodeToString`: regroup 8-bit bytes into 6-bit
alphabet indices, unpadded. -/
def b64encode : List Nat → List Nat
  | [] => []
  | [a] => [a / 4, a % 4 * 16]
  | [a, b] => [a / 4, a % 4 * 16 + b / 16, b % 16 * 4]
  | a :: b :: c :: rest =>
      a / 4 :: (a % 4 * 16 + b / 16) :: (b % 16 * 4 + c / 64) :: c % 64 :: b64encode rest

/-- `base64.RawURLEncoding.DecodeString`: inverse regrouping; fails on an
index outside the alphabet or on an impossible length (1 mod 4). -/
def b64decode : List Nat → Option (List Nat)
  | [] => some []
  | [s1, s2] =>
      if s1 < 64 ∧ s2 < 64 then some [s1 * 4 + s2 / 16] else none
  | [s1, s2, s3] =>
      if s1 < 64 ∧ s2 < 64 ∧ s3 < 64 then
        some [s1 * 4 + s2 / 16, s2 % 16 * 16 + s3 / 4]
      else none
  | s1 :: s2 :: s3 :: s4 :: rest =>
      if s1 < 64 ∧ s2 < 64 ∧ s3 < 64 ∧ s4 < 64 then
        (b64decode rest).map
          (fun bs => (s1 * 4 + s2 / 16) :: (s2 % 16 * 16 + s3 / 4) :: (s3 % 4 * 64 + s4) :: bs)
      else none
  | [_] => none

/-- `bencode.Marshal` of a Go byte slice: ASCII decimal length, ':', payload.
For byte slices this marshalling is total (the error branch in `isValid` is
unreachable). -/
def bencodeBytes (v : List Nat) : List Nat :=
  ((Nat.toDigits 10 v.length).map Char.toNat) ++ 58 :: v

/-- Errors visible through the Go `error` returns of the service, plus the
run-time panic of a slice-to-array conversion on a too-short slice. -/
inductive Err
  | invalidRequest
  | invalidSignature
  | duplicateKey
  | cacheSetFailed
  | storeNotFound
  | dhtPayloadDecode
  | recordDecode
  | sliceTooShort
deriving DecidableEq, Repr

/-- Whether an `Except` is the error case. -/
def isErr {α : Type} : Except Err α → Bool
  | .error _ => true
  | .ok _ => false

/-- `PublishPkarrRequest`: `V []byte`, `K [32]byte`, `Sig [64]byte`,
`Seq int64`, all tagged `validate:"required"`. -/
structure PublishPkarrRequest where
  V : List Nat
  K : List Nat
  Sig : List Nat
  Seq : Int
deriving DecidableEq, Repr

/-- `pkarr.Record`: the durable form of a record, with `V`, `K`, `Sig`
armored by `base64.RawURLEncoding` (here: 6-bit index lists) and the raw
`Seq`. The postgres row stores it under the record's external id
(columns `key, value, sig, seq`). -/
structure PkarrRecord where
  V : List Nat
  K : List Nat
  Sig : List Nat
  Seq : Int
deriving DecidableEq, Repr

/-- `GetPkarrResponse`: `V []byte`, `Seq int64`, `Sig [64]byte`. -/
structure GetPkarrResponse where
  V : List Nat
  Seq : Int
  Sig : List Nat
deriving DecidableEq, Repr

/-- `bep44.Put`: the payload handed to `dht.Put`. -/
structure Put where
  V : List Nat
  K : List Nat
  Sig : List Nat
  Seq : Int
deriving DecidableEq, Repr

/-- A full item returned by `dht.GetFull`; `V` carries the bencode-marshaled
payload bytes (`got.V.MarshalBencode`). -/
structure DhtItem where
  V : List Nat
  Seq : Int
  Sig : List Nat
deriving DecidableEq, Repr

/-- External collaborators, as oracles.

  * `verify` — `bep44.Verify(k, nil salt, seq, bencoded v, sig)`; ed25519 is
    outside the core (spec §1).
  * `dhtGetFull` — `dht.GetFull(ctx, id)`; `none` is the error case.
  * `dhtPutOk` — outcome of `dht.Put` for a given put; the code only ever
    logs a failure.
  * `cacheSetOk` — bigcache `Set` outcomes not explained by the per-entry
    size bound (e.g. a closed cache); the size bound itself is modelled in
    `cacheSet`.
  * `idFromK` — modelled from the spec: the deterministic encoding of the
    public key to the record's external id is computed outside this core
    (spec §3), and the storage glue that keys the row by it is not under
    `src/`.
  * `readMissesAsNil` — modelled from the spec: the storage glue adapting
    the backend's read to `(*pkarr.Record, error)` is not under `src/`;
    `GetPkarr`'s `record == nil` guard shows a `(nil, nil)` miss exists,
    while spec §6 documents a not-found error. Both behaviors are covered
    by this switch. -/
structure Env where
  verify : List Nat → Int → List Nat → List Nat → Bool
  dhtGetFull : String → Option DhtItem
  dhtPutOk : Put → Bool
  cacheSetOk : String → GetPkarrResponse → Bool
  idFromK : List Nat → String
  readMissesAsNil : Bool

/-- The service's shared mutable world: the durable store (postgres
`pkarr_records` rows, keyed by id), the cache, the DHT puts dispatched by
publish goroutines, and the count of logged put failures. -/
structure ServiceState where
  store : List (String × PkarrRecord)
  cache : List (String × GetPkarrResponse)
  pendingPuts : List Put
  dhtFailLogs : Nat
deriving DecidableEq, Repr

/-- `PublishPkarrRequest.isValid`: `util.IsValidStruct` checks every
`validate:"required"` field against its zero value (spec §4.1:
"absent/zero-valued"), then `bep44.Verify` checks the signature over the
bencoded payload. -/
def isValid (env : Env) (p : PublishPkarrRequest) : Option Err :=
  if p.V = [] ∨ p.K = List.replicate 32 0 ∨ p.Sig = List.replicate 64 0 ∨ p.Seq = 0 then
    some .invalidRequest
  else if ¬ env.verify p.K p.Seq (bencodeBytes p.V) p.Sig then
    some .invalidSignature
  else
    none

/-- `PublishPkarrRequest.toRecord`: armor `V`, `K`, `Sig` with
`base64.RawURLEncoding`. -/
def toRecord (p : PublishPkarrRequest) : PkarrRecord :=
  { V := b64encode p.V, K := b64encode p.K, Sig := b64encode p.Sig, Seq := p.Seq }

/-- The `GetPkarrResponse` literal built inside `PublishPkarr` for the cache
write. -/
def publishResponse (p : PublishPkarrRequest) : GetPkarrResponse :=
  { V := p.V, Seq := p.Seq, Sig := p.Sig }

/-- The `bep44.Put` literal dispatched by `PublishPkarr`'s goroutine. -/
def putOf (p : PublishPkarrRequest) : Put :=
  { V := p.V, K := p.K, Sig := p.Sig, Seq := p.Seq }

/-- Decimal digit count of a natural number (Go `strconv` formatting). -/
def natDecimalLen (n : Nat) : Nat := (Nat.toDigits 10 n).length

/-- Length of the decimal rendering of an `int64`. -/
def intDecimalLen (i : Int) : Nat :=
  if i < 0 then 1 + natDecimalLen i.natAbs else natDecimalLen i.natAbs

/-- Length of the padded standard base64 of `n` bytes (Go `json` encodes a
`[]byte` field this way). -/
def b64StdLen (n : Nat) : Nat := (n + 2) / 3 * 4

/-- Length of the JSON array rendering of a `[64]byte` field (Go `json`
renders fixed-size byte arrays as arrays of numbers). -/
def jsonArrayLen (l : List Nat) : Nat :=
  if l = [] then 2 else 1 + (l.map natDecimalLen).sum + l.length

/-- Byte length of `json.Marshal(GetPkarrResponse{V, Seq, Sig})`:
the fixed frame is 22 bytes. -/
def cachedLen (r : GetPkarrResponse) : Nat :=
  22 + b64StdLen r.V.length + intDecimalLen r.Seq + jsonArrayLen r.Sig

/-- `cache.Set(id, bytes)`. Modelled from the spec for the external cache:
`Set` is size-bounded per entry (~1000 bytes, spec §6; `MaxEntrySize` is set
to `recordSizeLimit` in `NewPkarrService`); other failure modes are the
`cacheSetOk` oracle. A successful set replaces any previous entry. -/
def cacheSet (env : Env) (cache : List (String × GetPkarrResponse)) (id : String)
    (resp : GetPkarrResponse) : Option (List (String × GetPkarrResponse)) :=
  if env.cacheSetOk id resp ∧ cachedLen resp ≤ recordSizeLimit then
    some ((id, resp) :: cache.filter (fun e => e.1 ≠ id))
  else
    none

/-- `WriteRecord` as generated by sqlc: a plain
`INSERT INTO pkarr_records(key, value, sig, seq) VALUES($1, $2, $3, $4)`
with no conflict clause. Modelled from the spec for the missing schema and
glue: the table is the durable key→record store keyed by the record's id
(spec §2, §6), so the key is unique and inserting an existing key fails. -/
def writeRecord (env : Env) (store : List (String × PkarrRecord)) (r : PkarrRecord) :
    Except Err (List (String × PkarrRecord)) :=
  if (store.lookup (env.idFromK r.K)).isSome then
    .error .duplicateKey
  else
    .ok (store ++ [(env.idFromK r.K, r)])

/-- `ReadRecord` at the service boundary: a present row is returned; a miss
is either a `(nil, nil)` pair or a not-found error depending on the glue
(see `Env.readMissesAsNil`). -/
def readRecord (env : Env) (store : List (String × PkarrRecord)) (id : String) :
    Except Err (Option PkarrRecord) :=
  match store.lookup id with
  | some r => .ok (some r)
  | none => if env.readMissesAsNil then .ok none else .error .storeNotFound

/-- `fromPkarrRecord`: decode the armored `V` and `Sig`; the Go
`[64]byte(sigBytes)` conversion panics when fewer than 64 bytes decode and
takes the first 64 otherwise. -/
def fromPkarrRecord (record : PkarrRecord) : Except Err GetPkarrResponse :=
  match b64decode record.V with
  | none => .error .recordDecode
  | some v =>
    match b64decode record.Sig with
    | none => .error .recordDecode
    | some sig =>
      if 64 ≤ sig.length then
        .ok { V := v, Seq := record.Seq, Sig := sig.take 64 }
      else .error .sliceTooShort

/-- `recordToBEP44Put`: decode all three armored fields back to bytes; the
`(*[32]byte)` and `[64]byte` conversions panic on short slices. -/
def recordToBEP44Put (record : PkarrRecord) : Except Err Put :=
  match b64decode record.V with
  | none => .error .recordDecode
  | some v =>
    match b64decode record.K with
    | none => .error .recordDecode
    | some k =>
      match b64decode record.Sig with
      | none => .error .recordDecode
      | some sig =>
        if 32 ≤ k.length ∧ 64 ≤ sig.length then
          .ok { V := v, K := k.take 32, Sig := sig.take 64, Seq := record.Seq }
        else .error .sliceTooShort

/-- `PublishPkarr`: validate; write the armored record to the db; marshal
the response and set it in the cache; then dispatch the DHT put in a
goroutine whose error is only logged. `json.Marshal` of this struct is
total, so its error branch is unreachable. -/
def publishPkarr (env : Env) (st : ServiceState) (id : String)
    (req : PublishPkarrRequest) : Except Err Unit × ServiceState :=
  match isValid env req with
  | some e => (.error e, st)
  | none =>
    match writeRecord env st.store (toRecord req) with
    | .error e => (.error e, st)
    | .ok store1 =>
      match cacheSet env st.cache id (publishResponse req) with
      | none => (.error .cacheSetFailed, { st with store := store1 })
      | some cache1 =>
        (.ok (),
         { st with
             store := store1
             cache := cache1
             pendingPuts := st.pendingPuts ++ [putOf req]
             dhtFailLogs := st.dhtFailLogs + (if env.dhtPutOk (putOf req) then 0 else 1) })

/-- Parse the ASCII decimal length prefix of a bencoded string up to ':'. -/
def parseBencodeLen : List Nat → Nat → Option (Nat × List Nat)
  | [], _ => none
  | c :: rest, acc =>
    if c = 58 then some (acc, rest)
    else if 48 ≤ c ∧ c ≤ 57 then parseBencodeLen rest (acc * 10 + (c - 48))
    else none

/-- `bencode.Unmarshal` of a bencoded string into a Go string (the DHT hit
path of `GetPkarr`): length prefix, ':', exactly that many payload bytes. -/
def bdecodeString (l : List Nat) : Option (List Nat) :=
  match parseBencodeLen l 0 with
  | none => none
  | some (n, rest) => if rest.length = n then some rest else none

deriving instance DecidableEq for Except

/-- Result of one `GetPkarr` call: the `(response, error)` pair, the state
after any write-through, and whether the DHT was queried. -/
structure GetResult where
  resp : Except Err (Option GetPkarrResponse)
  state : ServiceState
  dhtQueried : Bool
deriving DecidableEq, Repr

/-- `GetPkarr`: cache lookup; on miss a DHT lookup; on DHT failure the
durable-store fallback. Both non-cache hits write through to the cache, and
a cache-write failure there is only logged. A store miss surfaces either
the read error or Go's `(nil, nil)`. -/
def getPkarr (env : Env) (st : ServiceState) (id : String) : GetResult :=
  match st.cache.lookup id with
  | some resp => { resp := .ok (some resp), state := st, dhtQueried := false }
  | none =>
    match env.dhtGetFull id with
    | some item =>
      match bdecodeString item.V with
      | none => { resp := .error .dhtPayloadDecode, state := st, dhtQueried := true }
      | some payload =>
        let resp : GetPkarrResponse := { V := payload, Seq := item.Seq, Sig := item.Sig }
        match cacheSet env st.cache id resp with
        | some cache1 =>
            { resp := .ok (some resp), state := { st with cache := cache1 }, dhtQueried := true }
        | none => { resp := .ok (some resp), state := st, dhtQueried := true }
    | none =>
      match readRecord env st.store id with
      | .error e => { resp := .error e, state := st, dhtQueried := true }
      | .ok none => { resp := .ok none, state := st, dhtQueried := true }
      | .ok (some record) =>
        match fromPkarrRecord record with
        | .error e => { resp := .error e, state := st, dhtQueried := true }
        | .ok resp =>
          match cacheSet env st.cache id resp with
          | some cache1 =>
              { resp := .ok (some resp), state := { st with cache := cache1 }, dhtQueried := true }
          | none => { resp := .ok (some resp), state := st, dhtQueried := true }

/-- The republish loop body over the listed records: convert, put, count
failures, never abort. Returns the final error count and the puts issued. -/
def republishLoop (env : Env) : List PkarrRecord → Nat → List Put → Nat × List Put
  | [], errCnt, attempted => (errCnt, attempted)
  | r :: rest, errCnt, attempted =>
    match recordToBEP44Put r with
    | .error _ => republishLoop env rest (errCnt + 1) attempted
    | .ok put =>
        republishLoop env rest (errCnt + (if env.dhtPutOk put then 0 else 1))
          (attempted ++ [put])

/-- Summary of one republish tick: the puts issued to the DHT in order, the
logged failure count, and the number of records listed. -/
structure RepublishOutcome where
  attempted : List Put
  errCnt : Nat
  total : Nat
deriving DecidableEq, Repr

/-- `republish`: list every stored record; return early when there are
none; otherwise run the loop over all of them. -/
def republish (env : Env) (st : ServiceState) : RepublishOutcome :=
  let recs := st.store.map (·.2)
  if recs.isEmpty then { attempted := [], errCnt := 0, total := 0 }
  else
    let p := republishLoop env recs 0 []
    { attempted := p.2, errCnt := p.1, total := recs.length }

/-- Rewrite every stored record's sequence number (used to state that the
publish verdict never reads stored sequence numbers). -/
def mapStoredSeq (f : Int → Int) (st : ServiceState) : ServiceState :=
  { st with store := st.store.map (fun p => (p.1, { p.2 with Seq := f p.2.Seq })) }

/-! Concrete fixtures used by witnesses and counterexamples. They mirror the
spec's §8 concrete scenario: key `k1`, signatures `s1`/`s2`, payloads
"hello"/"world", ids published under "abc". -/

def k1 : List Nat := List.replicate 32 1

def s1 : List Nat := List.replicate 64 2

def s2 : List Nat := List.replicate 64 3

def helloBytes : List Nat := [104, 101, 108, 108, 111]

def worldBytes : List Nat := [119, 111, 114, 108, 100]

def req1 : PublishPkarrRequest := { V := helloBytes, K := k1, Sig := s1, Seq := 1 }

/-- The spec's second request: lower sequence number zero. -/
def req2 : PublishPkarrRequest := { V := worldBytes, K := k1, Sig := s2, Seq := 0 }

/-- A request with the same key as `req1` and a higher sequence number. -/
def req3 : PublishPkarrRequest := { V := worldBytes, K := k1, Sig := s2, Seq := 2 }

/-- A request whose payload exceeds the 1000-byte record size limit. -/
def reqBig : PublishPkarrRequest :=
  { V := List.replicate 1001 104, K := k1, Sig := s1, Seq := 1 }

/-- Baseline oracle assignment: signatures verify, the DHT is unreachable
for reads, DHT puts succeed, the cache accepts writes, every key derives the
id "abc", and a store miss is a not-found error. -/
def envT : Env :=
  { verify := fun _ _ _ _ => true
    dhtGetFull := fun _ => none
    dhtPutOk := fun _ => true
    cacheSetOk := fun _ _ => true
    idFromK := fun _ => "abc"
    readMissesAsNil := false }

def envVF : Env := { envT with verify := fun _ _ _ _ => false }

def envCF : Env := { envT with cacheSetOk := fun _ _ => false }

def envNil : Env := { envT with readMissesAsNil := true }

/-- DHT puts fail exactly for sequence number 2 (one record of the C8
witness store). -/
def envPF : Env := { envT with dhtPutOk := fun put => decide (put.Seq ≠ 2) }

def st0 : ServiceState := { store := [], cache := [], pendingPuts := [], dhtFailLogs := 0 }

/-- A state whose record exists only in durable storage. -/
def stStoreOnly : ServiceState := { st0 with store := [("abc", toRecord req1)] }

/-- A two-record store for the republish witness. -/
def stTwo : ServiceState :=
  { st0 with store := [("abc", toRecord req1), ("def", toRecord req3)] }

/-- The state after the witness publish of `req1`. -/
def pubState1 : ServiceState := (publishPkarr envT st0 "abc" req1).2

/-! Helper lemmas. -/

/-- Unpadded base64 decoding inverts encoding on byte lists. -/
theorem b64_roundtrip : ∀ l : List Nat, (∀ x ∈ l, x < 256) →
    b64decode (b64encode l) = some l
  | [], _ => rfl
  | [a], h => by
      have ha : a < 256 := h a (by simp)
      simp only [b64encode, b64decode]
      rw [if_pos ⟨by omega, by omega⟩]
      have : a / 4 * 4 + a % 4 * 16 / 16 = a := by omega
      rw [this]
  | [a, b], h => by
      have ha : a < 256 := h a (by simp)
      have hb : b < 256 := h b (by simp)
      simp only [b64encode, b64decode]
      rw [if_pos ⟨by omega, by omega, by omega⟩]
      have h1 : a / 4 * 4 + (a % 4 * 16 + b / 16) / 16 = a := by omega
      have h2 : (a % 4 * 16 + b / 16) % 16 * 16 + b % 16 * 4 / 4 = b := by omega
      rw [h1, h2]
  | a :: b :: c :: rest, h => by
      have ha : a < 256 := h a (by simp)
      have hb : b < 256 := h b (by simp)
      have hc : c < 256 := h c (by simp)
      have ih := b64_roundtrip rest (fun x hx => h x (by simp [hx]))
      simp only [b64encode, b64decode]
      rw [if_pos ⟨by omega, by omega, by omega, by omega⟩, ih]
      simp only [Option.map_some']
      have h1 : a / 4 * 4 + (a % 4 * 16 + b / 16) / 16 = a := by omega
      have h2 : (a % 4 * 16 + b / 16) % 16 * 16 + (b % 16 * 4 + c / 64) / 4 = b := by omega
      have h3 : (b % 16 * 4 + c / 64) % 4 * 64 + c % 64 = c := by omega
      rw [h1, h2, h3]

/-- Reading back the armored record of a request recovers its response. -/
theorem fromPkarrRecord_toRecord (req : PublishPkarrRequest)
    (hV : isBytes req.V) (hS : isBytes req.Sig) (hSl : req.Sig.length = 64) :
    fromPkarrRecord (toRecord req) = .ok (publishResponse req) := by
  unfold fromPkarrRecord toRecord publishResponse
  rw [b64_roundtrip req.V hV, b64_roundtrip req.Sig hS]
  simp [hSl, List.take_of_length_le]

/-- Converting the armored record of a request back to a BEP44 put recovers
the request's fields verbatim. -/
theorem recordToBEP44Put_toRecord (req : PublishPkarrRequest)
    (hV : isBytes req.V) (hK : isBytes req.K) (hS : isBytes req.Sig)
    (hKl : req.K.length = 32) (hSl : req.Sig.length = 64) :
    recordToBEP44Put (toRecord req) = .ok (putOf req) := by
  unfold recordToBEP44Put toRecord putOf
  rw [b64_roundtrip req.V hV, b64_roundtrip req.K hK, b64_roundtrip req.Sig hS]
  simp [hKl, hSl, List.take_of_length_le]

/-- Rewriting stored sequence numbers does not change which keys are
present. -/
theorem lookup_map_seq_isSome (key : String) (f : Int → Int) :
    ∀ store : List (String × PkarrRecord),
      (List.lookup key (store.map (fun p => (p.1, { p.2 with Seq := f p.2.Seq })))).isSome
        = (List.lookup key store).isSome
  | [] => rfl
  | (k, r) :: rest => by
      cases h : key == k
      all_goals simp [List.lookup, h, lookup_map_seq_isSome key f rest]

/-- The republish loop over convertible records: every record yields exactly
one attempted put, and the error count grows by the number of failed puts. -/
theorem republishLoop_spec (env : Env) :
    ∀ (recs : List PkarrRecord) (e : Nat) (a : List Put),
      (∀ r ∈ recs, isErr (recordToBEP44Put r) = false) →
      ∃ newPuts : List Put,
        (republishLoop env recs e a).2 = a ++ newPuts ∧
        newPuts.length = recs.length ∧
        (republishLoop env recs e a).1 = e + (newPuts.filter (fun p => ! env.dhtPutOk p)).length
  | [], e, a, _ => ⟨[], by simp [republishLoop]⟩
  | r :: rest, e, a, h => by
      have hr : isErr (recordToBEP44Put r) = false := h r (by simp)
      cases hput : recordToBEP44Put r with
      | error err => rw [hput] at hr; simp [isErr] at hr
      | ok put =>
        obtain ⟨nps, h1, h2, h3⟩ :=
          republishLoop_spec env rest (e + (if env.dhtPutOk put then 0 else 1)) (a ++ [put])
            (fun x hx => h x (by simp [hx]))
        refine ⟨put :: nps, ?_, ?_, ?_⟩
        · simp only [republishLoop, hput] at h1 ⊢
          simp [h1]
        · simp [h2]
        · simp only [republishLoop, hput] at h3 ⊢
          rw [h3]
          cases hok : env.dhtPutOk put
          all_goals simp [hok]
          all_goals omega

/-- The list of attempted puts in the republish loop does not depend on the
DHT put oracle or the running error count. -/
theorem republishLoop_attempted_inv (envA envB : Env) :
    ∀ (recs : List PkarrRecord) (e1 e2 : Nat) (a : List Put),
      (republishLoop envA recs e1 a).2 = (republishLoop envB recs e2 a).2
  | [], _, _, _ => rfl
  | r :: rest, e1, e2, a => by
      cases hput : recordToBEP44Put r with
      | error err =>
          simp only [republishLoop, hput]
          exact republishLoop_attempted_inv envA envB rest (e1 + 1) (e2 + 1) a
      | ok put =>
          simp only [republishLoop, hput]
          exact republishLoop_attempted_inv envA envB rest _ _ (a ++ [put])

/-- The padded base64 rendering of `n` bytes is at least `n` characters. -/
theorem b64StdLen_ge (n : Nat) : n ≤ b64StdLen n := by
  unfold b64StdLen
  omega

/-- A cached entry is at least as large as the payload it carries. -/
theorem cachedLen_ge (r : GetPkarrResponse) : r.V.length ≤ cachedLen r := by
  unfold cachedLen
  have := b64StdLen_ge r.V.length
  omega

/-! Claim theorems. -/

/-- C1: for every request that a `PublishPkarr` call accepts (its signature
verifies and field validation passes, witnessed by the successful return),
an immediately following `GetPkarr` on the same id returns a response whose
`V`, `Seq` and `Sig` equal those of the request, unchanged. -/
theorem publish_then_resolve_roundtrip (env : Env) (st : ServiceState) (id : String)
    (req : PublishPkarrRequest) (st1 : ServiceState)
    (h : publishPkarr env st id req = (.ok (), st1)) :
    (getPkarr env st1 id).resp = .ok (some { V := req.V, Seq := req.Seq, Sig := req.Sig }) := by
  unfold publishPkarr at h
  split at h
  · simp at h
  · split at h
    · simp at h
    · split at h
      · simp at h
      · rename_i store1 hw cache1 hc
        simp only [Prod.mk.injEq] at h
        obtain ⟨-, h2⟩ := h
        subst h2
        unfold cacheSet at hc
        split at hc
        · simp only [Option.some.injEq] at hc
          subst hc
          simp [getPkarr, List.lookup, publishResponse]
        · exact absurd hc (by simp)

/-- C1 witness: publishing `req1` into the empty state and resolving "abc"
returns exactly `req1`'s payload, sequence number and signature. -/
theorem publish_then_resolve_roundtrip_witness :
    publishPkarr envT st0 "abc" req1 = (.ok (), pubState1) ∧
    (getPkarr envT pubState1 "abc").resp =
      .ok (some { V := req1.V, Seq := req1.Seq, Sig := req1.Sig }) :=
  ⟨by decide, publish_then_resolve_roundtrip envT st0 "abc" req1 pubState1 (by decide)⟩

/-- C2: when the signature does not verify, `PublishPkarr` returns an error
and the state — durable store, cache, dispatched DHT puts, logs — is exactly
unchanged: validation precedes every write. -/
theorem invalid_signature_publish_rejected (env : Env) (st : ServiceState) (id : String)
    (req : PublishPkarrRequest)
    (h : env.verify req.K req.Seq (bencodeBytes req.V) req.Sig = false) :
    isErr (publishPkarr env st id req).1 = true ∧ (publishPkarr env st id req).2 = st := by
  cases hv : isValid env req with
  | some e => simp [publishPkarr, hv, isErr]
  | none =>
      exfalso
      unfold isValid at hv
      split at hv
      · exact Option.noConfusion hv
      · split at hv
        · exact Option.noConfusion hv
        · rename_i hcond
          simp [h] at hcond

/-- C2 witness: with a refusing verifier, publishing `req1` errors and the
empty state is untouched. -/
theorem invalid_signature_publish_rejected_witness :
    envVF.verify req1.K req1.Seq (bencodeBytes req1.V) req1.Sig = false ∧
    (isErr (publishPkarr envVF st0 "abc" req1).1 = true ∧
      (publishPkarr envVF st0 "abc" req1).2 = st0) :=
  ⟨rfl, invalid_signature_publish_rejected envVF st0 "abc" req1 rfl⟩

/-- C6: when validation passes and the durable write succeeds but the cache
write fails, `PublishPkarr` returns an error even though the record is
already durably stored, and no DHT announcement is dispatched. -/
theorem cache_failure_fails_publish_after_durable_write (env : Env) (st : ServiceState)
    (id : String) (req : PublishPkarrRequest)
    (hvalid : isValid env req = none)
    (hfresh : st.store.lookup (env.idFromK (toRecord req).K) = none)
    (hcachefail : cacheSet env st.cache id (publishResponse req) = none) :
    (publishPkarr env st id req).1 = .error .cacheSetFailed ∧
    (publishPkarr env st id req).2.store =
      st.store ++ [(env.idFromK (toRecord req).K, toRecord req)] ∧
    (publishPkarr env st id req).2.cache = st.cache ∧
    (publishPkarr env st id req).2.pendingPuts = st.pendingPuts := by
  have hw : writeRecord env st.store (toRecord req) =
      .ok (st.store ++ [(env.idFromK (toRecord req).K, toRecord req)]) := by
    unfold writeRecord
    rw [if_neg (by simp [hfresh])]
  simp [publishPkarr, hvalid, hw, hcachefail]

/-- C6 witness: with a cache that refuses writes, publishing `req1` fails
with the cache error while the record sits in the store and no put is
pending. -/
theorem cache_failure_fails_publish_after_durable_write_witness :
    isValid envCF req1 = none ∧
    st0.store.lookup (envCF.idFromK (toRecord req1).K) = none ∧
    cacheSet envCF st0.cache "abc" (publishResponse req1) = none ∧
    ((publishPkarr envCF st0 "abc" req1).1 = .error .cacheSetFailed ∧
      (publishPkarr envCF st0 "abc" req1).2.store =
        st0.store ++ [(envCF.idFromK (toRecord req1).K, toRecord req1)] ∧
      (publishPkarr envCF st0 "abc" req1).2.cache = st0.cache ∧
      (publishPkarr envCF st0 "abc" req1).2.pendingPuts = st0.pendingPuts) :=
  ⟨by decide, by decide, by decide,
    cache_failure_fails_publish_after_durable_write envCF st0 "abc" req1
      (by decide) (by decide) (by decide)⟩

/-- C10: on a cache miss, a DHT lookup error, and a `(nil, nil)` answer from
the durable store's read, `GetPkarr` returns neither a record nor an error,
and the state is unchanged. -/
theorem resolve_miss_returns_nil_nil (env : Env) (st : ServiceState) (id : String)
    (hc : st.cache.lookup id = none)
    (hd : env.dhtGetFull id = none)
    (hs : st.store.lookup id = none)
    (hn : env.readMissesAsNil = true) :
    (getPkarr env st id).resp = .ok none ∧ (getPkarr env st id).state = st := by
  have hr : readRecord env st.store id = .ok none := by
    unfold readRecord
    rw [hs, hn]
    simp
  simp [getPkarr, hc, hd, hr]

/-- C10 witness: an id absent everywhere, under the nil-returning store
glue, resolves to the `(nil, nil)` pair. -/
theorem resolve_miss_returns_nil_nil_witness :
    st0.cache.lookup "zzz" = none ∧
    envNil.dhtGetFull "zzz" = none ∧
    st0.store.lookup "zzz" = none ∧
    envNil.readMissesAsNil = true ∧
    ((getPkarr envNil st0 "zzz").resp = .ok none ∧ (getPkarr envNil st0 "zzz").state = st0) :=
  ⟨rfl, rfl, rfl, rfl,
    resolve_miss_returns_nil_nil envNil st0 "zzz" rfl rfl rfl rfl⟩

/-- C3: for an id whose record exists only in durable storage (cache miss,
DHT error), `GetPkarr` returns the stored record's response and writes it
through to the cache, so a second `GetPkarr` of the same id is a cache hit
that never queries the DHT. -/
theorem resolve_store_fallback_writes_through_cache (env : Env) (st : ServiceState)
    (id : String) (req : PublishPkarrRequest)
    (hcache : st.cache.lookup id = none)
    (hdht : env.dhtGetFull id = none)
    (hstore : st.store.lookup id = some (toRecord req))
    (hV : isBytes req.V) (hS : isBytes req.Sig) (hSl : req.Sig.length = 64)
    (hok : env.cacheSetOk id (publishResponse req) = true)
    (hlen : cachedLen (publishResponse req) ≤ recordSizeLimit) :
    (getPkarr env st id).resp = .ok (some (publishResponse req)) ∧
    (getPkarr env st id).dhtQueried = true ∧
    (getPkarr env (getPkarr env st id).state id).resp = .ok (some (publishResponse req)) ∧
    (getPkarr env (getPkarr env st id).state id).dhtQueried = false := by
  have hr : readRecord env st.store id = .ok (some (toRecord req)) := by
    unfold readRecord
    rw [hstore]
  have hf := fromPkarrRecord_toRecord req hV hS hSl
  have hcs : cacheSet env st.cache id (publishResponse req) =
      some ((id, publishResponse req) :: st.cache.filter (fun e => e.1 ≠ id)) := by
    unfold cacheSet
    rw [if_pos ⟨hok, hlen⟩]
  have h1 : getPkarr env st id =
      { resp := .ok (some (publishResponse req))
        state :=
          { st with cache := (id, publishResponse req) :: st.cache.filter (fun e => e.1 ≠ id) }
        dhtQueried := true } := by
    simp [getPkarr, hcache, hdht, hr, hf, hcs]
  refine ⟨by rw [h1], by rw [h1], ?_, ?_⟩
  · rw [h1]
    simp [getPkarr, List.lookup]
  · rw [h1]
    simp [getPkarr, List.lookup]

/-- C3 witness: "abc" is stored only durably; the first resolve queries the
DHT and falls back to the store, the second is a pure cache hit. -/
theorem resolve_store_fallback_writes_through_cache_witness :
    stStoreOnly.cache.lookup "abc" = none ∧
    envT.dhtGetFull "abc" = none ∧
    stStoreOnly.store.lookup "abc" = some (toRecord req1) ∧
    ((getPkarr envT stStoreOnly "abc").resp = .ok (some (publishResponse req1)) ∧
      (getPkarr envT stStoreOnly "abc").dhtQueried = true ∧
      (getPkarr envT (getPkarr envT stStoreOnly "abc").state "abc").resp =
        .ok (some (publishResponse req1)) ∧
      (getPkarr envT (getPkarr envT stStoreOnly "abc").state "abc").dhtQueried = false) :=
  ⟨rfl, rfl, by decide,
    resolve_store_fallback_writes_through_cache envT stStoreOnly "abc" req1
      rfl rfl (by decide) (by decide) (by decide) (by decide) (by decide) (by decide)⟩

/-- C5 counterexample: the spec's own concrete scenario fails on the code.
After a successful publish of `req1` (Seq 1), the second publish of
`{V: "world", K: k1, Sig: s2, Seq: 0}` — with a verifier that accepts every
signature — does not succeed: `Seq = 0` is a zero-valued required field, so
`isValid` rejects the request before the signature check or any write. -/
theorem seq_zero_publish_rejected :
    (publishPkarr envT st0 "abc" req1).1 = .ok () ∧
    (publishPkarr envT (publishPkarr envT st0 "abc" req1).2 "abc" req2).1 =
      .error .invalidRequest := by
  constructor
  · decide
  · decide

/-- C5 amended: no sequence-number comparison is performed on write — the
verdict of `PublishPkarr` is invariant under arbitrary rewriting of every
stored sequence number. (The claimed success of the concrete scenario fails
for Seq-independent reasons: `Seq = 0` is rejected by required-field
validation, and a repeat publish of an already-stored key fails the plain
`INSERT`.) -/
theorem publish_ignores_stored_seq (env : Env) (f : Int → Int) (st : ServiceState)
    (id : String) (req : PublishPkarrRequest) :
    (publishPkarr env (mapStoredSeq f st) id req).1 = (publishPkarr env st id req).1 := by
  unfold publishPkarr writeRecord mapStoredSeq
  cases hv : isValid env req with
  | some e => simp [hv]
  | none =>
    simp only [hv]
    rw [lookup_map_seq_isSome]
    cases hmem : (st.store.lookup (env.idFromK (toRecord req).K)).isSome with
    | true => simp [hmem]
    | false =>
      simp only [hmem, Bool.false_eq_true, if_false]
      cases hcs : cacheSet env st.cache id (publishResponse req) with
      | none => simp [hcs]
      | some c => simp [hcs]

/-- C7: the caller-visible outcome of a publish — its verdict, the store,
the cache, and the dispatched announcements — does not depend on the DHT
put oracle, and a republish tick issues the same puts over the same total
whatever that oracle returns; put failures reach only the logs. -/
theorem dht_put_outcome_invisible_to_callers (env : Env) (f : Put → Bool)
    (st : ServiceState) (id : String) (req : PublishPkarrRequest) :
    ((publishPkarr { env with dhtPutOk := f } st id req).1 =
        (publishPkarr env st id req).1 ∧
      (publishPkarr { env with dhtPutOk := f } st id req).2.store =
        (publishPkarr env st id req).2.store ∧
      (publishPkarr { env with dhtPutOk := f } st id req).2.cache =
        (publishPkarr env st id req).2.cache ∧
      (publishPkarr { env with dhtPutOk := f } st id req).2.pendingPuts =
        (publishPkarr env st id req).2.pendingPuts) ∧
    ((republish { env with dhtPutOk := f } st).attempted = (republish env st).attempted ∧
      (republish { env with dhtPutOk := f } st).total = (republish env st).total) := by
  constructor
  · unfold publishPkarr
    cases hv : isValid env req with
    | some e => simp [show isValid { env with dhtPutOk := f } req = some e from hv]
    | none =>
      simp only [show isValid { env with dhtPutOk := f } req = none from hv]
      cases hw : writeRecord env st.store (toRecord req) with
      | error e =>
          simp [show writeRecord { env with dhtPutOk := f } st.store (toRecord req) =
            .error e from hw]
      | ok store1 =>
        simp only [show writeRecord { env with dhtPutOk := f } st.store (toRecord req) =
          .ok store1 from hw]
        cases hc : cacheSet env st.cache id (publishResponse req) with
        | none =>
            simp [show cacheSet { env with dhtPutOk := f } st.cache id (publishResponse req) =
              none from hc]
        | some cache1 =>
            simp [show cacheSet { env with dhtPutOk := f } st.cache id (publishResponse req) =
              some cache1 from hc]
  · unfold republish
    cases he : (st.store.map (·.2)).isEmpty with
    | true => simp [he]
    | false =>
        simp only [he, Bool.false_eq_true, if_false]
        exact ⟨republishLoop_attempted_inv _ _ _ 0 0 [], trivial⟩

/-- C8: a republish tick over a store of decodable records attempts one DHT
put per stored record with no early abort, its logged failure count is
exactly the number of failed puts, and each put reuses the stored signature
verbatim — converting a published record yields the original request's
fields, with no re-signing. -/
theorem republish_attempts_all_and_counts_failures (env : Env) (st : ServiceState)
    (hWF : ∀ p ∈ st.store, isErr (recordToBEP44Put p.2) = false) :
    (republish env st).attempted.length = st.store.length ∧
    (republish env st).errCnt =
      ((republish env st).attempted.filter (fun p => ! env.dhtPutOk p)).length ∧
    (∀ req : PublishPkarrRequest, isBytes req.V → isBytes req.K → isBytes req.Sig →
      req.K.length = 32 → req.Sig.length = 64 →
      recordToBEP44Put (toRecord req) = .ok (putOf req)) := by
  have hWF2 : ∀ r ∈ st.store.map (·.2), isErr (recordToBEP44Put r) = false := by
    intro r hr
    obtain ⟨p, hp, rfl⟩ := List.mem_map.mp hr
    exact hWF p hp
  refine ⟨?_, ?_, fun req hV hK hS hKl hSl => recordToBEP44Put_toRecord req hV hK hS hKl hSl⟩
  all_goals
    unfold republish
    cases he : (st.store.map (·.2)).isEmpty with
    | true =>
        have hnil : st.store = [] := by
          cases hs : st.store with
          | nil => rfl
          | cons p rest => rw [hs] at he; simp at he
        simp [hnil]
    | false =>
        obtain ⟨nps, h1, h2, h3⟩ := republishLoop_spec env (st.store.map (·.2)) 0 [] hWF2
        simp only [he, Bool.false_eq_true, if_false]
        simp only [h1, h3, List.nil_append]
        simp [h2]

/-- C8 witness: two stored records, the DHT put failing exactly for the
second; both puts are attempted and one failure is logged. -/
theorem republish_attempts_all_and_counts_failures_witness :
    (∀ p ∈ stTwo.store, isErr (recordToBEP44Put p.2) = false) ∧
    ((republish envPF stTwo).attempted.length = stTwo.store.length ∧
      (republish envPF stTwo).errCnt =
        ((republish envPF stTwo).attempted.filter (fun p => ! envPF.dhtPutOk p)).length ∧
      (∀ req : PublishPkarrRequest, isBytes req.V → isBytes req.K → isBytes req.Sig →
        req.K.length = 32 → req.Sig.length = 64 →
        recordToBEP44Put (toRecord req) = .ok (putOf req))) :=
  ⟨by decide, republish_attempts_all_and_counts_failures envPF stTwo (by decide)⟩

/-- C4 (demonstration of the code defect): publishing the identical valid
request twice for the same id is not idempotent on this code. `WriteRecord`
is a plain `INSERT` with no conflict clause into the store keyed by id, so
the second publish's durable write fails with a duplicate-key error instead
of overwriting the row with identical content. -/
theorem second_publish_duplicate_key_fails :
    (publishPkarr envT st0 "abc" req1).1 = .ok () ∧
    (publishPkarr envT (publishPkarr envT st0 "abc" req1).2 "abc" req1).1 =
      .error .duplicateKey := by
  constructor
  · decide
  · decide

/-- The oversized payload has exactly 1001 bytes. -/
theorem reqBig_len : reqBig.V.length = 1001 := by
  rw [show reqBig.V = List.replicate 1001 104 from rfl, List.length_replicate]

/-- The oversized payload is a byte list (all bytes are 104). -/
theorem reqBig_bytesV : isBytes reqBig.V := by
  intro x hx
  rw [List.eq_of_mem_replicate (show x ∈ List.replicate 1001 104 from hx)]
  omega

/-- The oversized request passes field validation and signature
verification under the accepting oracle. -/
theorem reqBig_isValid : isValid envT reqBig = none := by
  have hC : ¬ (reqBig.V = [] ∨ reqBig.K = List.replicate 32 0 ∨
      reqBig.Sig = List.replicate 64 0 ∨ reqBig.Seq = 0) := by
    rintro (h | h | h | h)
    · have h2 := congrArg List.length h
      rw [reqBig_len] at h2
      simp at h2
    · exact absurd h (by decide)
    · exact absurd h (by decide)
    · exact absurd h (by decide)
  unfold isValid
  rw [if_neg hC]
  simp [envT]

/-- C9 counterexample: a request whose payload has 1001 bytes is published
in the operative sense. The synchronous `PublishPkarr` call reports a cache
error, yet the oversized record reaches durable storage and the next
republish tick announces it to the DHT — nothing bounds `V` before the
durable write. -/
theorem oversized_record_reaches_store_and_dht :
    1000 < reqBig.V.length ∧
    isErr (publishPkarr envT st0 "abc" reqBig).1 = true ∧
    (publishPkarr envT st0 "abc" reqBig).2.store = [("abc", toRecord reqBig)] ∧
    (republish envT (publishPkarr envT st0 "abc" reqBig).2).attempted = [putOf reqBig] := by
  have hbig : 1000 < reqBig.V.length := by
    rw [reqBig_len]
    omega
  have hvalid : isValid envT reqBig = none := reqBig_isValid
  have hw : writeRecord envT st0.store (toRecord reqBig) =
      .ok [("abc", toRecord reqBig)] := by
    unfold writeRecord
    rfl
  have hcs : cacheSet envT st0.cache "abc" (publishResponse reqBig) = none := by
    unfold cacheSet
    rw [if_neg]
    intro hand
    have h2 := hand.2
    have h3 : reqBig.V.length ≤ cachedLen (publishResponse reqBig) :=
      cachedLen_ge (publishResponse reqBig)
    unfold recordSizeLimit at h2
    omega
  have hp : publishPkarr envT st0 "abc" reqBig =
      (.error .cacheSetFailed, { st0 with store := [("abc", toRecord reqBig)] }) := by
    simp [publishPkarr, hvalid, hw, hcs]
  have hput : recordToBEP44Put (toRecord reqBig) = .ok (putOf reqBig) :=
    recordToBEP44Put_toRecord reqBig reqBig_bytesV (by decide) (by decide)
      (by decide) (by decide)
  refine ⟨hbig, by rw [hp]; rfl, by rw [hp], ?_⟩
  rw [hp]
  simp [republish, republishLoop, hput, envT]

/-- C9 amended: a valid fresh-key request whose payload exceeds the
1000-byte per-entry bound makes `PublishPkarr` return an error at the cache
stage (the serialized cache entry is at least as large as `V`), but only
after the durable write: the record is persisted, the publish dispatches no
announcement, and the next republish tick still lists it for announcement.
The payload size is never checked before storage. -/
theorem oversized_publish_errors_after_store_write (env : Env) (st : ServiceState)
    (id : String) (req : PublishPkarrRequest)
    (hvalid : isValid env req = none)
    (hfresh : st.store.lookup (env.idFromK (toRecord req).K) = none)
    (hbig : recordSizeLimit < req.V.length) :
    (publishPkarr env st id req).1 = .error .cacheSetFailed ∧
    (publishPkarr env st id req).2.store =
      st.store ++ [(env.idFromK (toRecord req).K, toRecord req)] ∧
    (publishPkarr env st id req).2.pendingPuts = st.pendingPuts ∧
    (republish env (publishPkarr env st id req).2).total = st.store.length + 1 := by
  have hw : writeRecord env st.store (toRecord req) =
      .ok (st.store ++ [(env.idFromK (toRecord req).K, toRecord req)]) := by
    unfold writeRecord
    rw [if_neg (by simp [hfresh])]
  have hcs : cacheSet env st.cache id (publishResponse req) = none := by
    unfold cacheSet
    rw [if_neg]
    intro hand
    have h2 := hand.2
    have h3 : req.V.length ≤ cachedLen (publishResponse req) :=
      cachedLen_ge (publishResponse req)
    omega
  have hp : publishPkarr env st id req =
      (.error .cacheSetFailed,
        { st with store := st.store ++ [(env.idFromK (toRecord req).K, toRecord req)] }) := by
    simp [publishPkarr, hvalid, hw, hcs]
  refine ⟨by rw [hp], by rw [hp], by rw [hp], ?_⟩
  rw [hp]
  unfold republish
  have hne : (((st.store ++ [(env.idFromK (toRecord req).K, toRecord req)]).map
      (fun x => x.2)).isEmpty) = false := by
    simp
  simp only [hne, Bool.false_eq_true, if_false]
  simp

/-- C9 witness: the 1001-byte request satisfies the amended theorem's
hypotheses against the empty state. -/
theorem oversized_publish_errors_after_store_write_witness :
    isValid envT reqBig = none ∧
    st0.store.lookup (envT.idFromK (toRecord reqBig).K) = none ∧
    recordSizeLimit < reqBig.V.length ∧
    ((publishPkarr envT st0 "abc" reqBig).1 = .error .cacheSetFailed ∧
      (publishPkarr envT st0 "abc" reqBig).2.store =
        st0.store ++ [(envT.idFromK (toRecord reqBig).K, toRecord reqBig)] ∧
      (publishPkarr envT st0 "abc" reqBig).2.pendingPuts = st0.pendingPuts ∧
      (republish envT (publishPkarr envT st0 "abc" reqBig).2).total = st0.store.length + 1) :=
  ⟨reqBig_isValid, rfl, by rw [reqBig_len]; decide,
    oversized_publish_errors_after_store_write envT st0 "abc" reqBig
      reqBig_isValid rfl (by rw [reqBig_len]; decide)⟩
